import Mathlib

/-!
# Verification of the ch03 Bollinger-band trading algorithm

Shallow embedding of `ch03/algorithms.py` (a Quantopian mean-reversion
strategy) and proofs about its decision logic.

Modelling conventions:
* a `Security` is an opaque identifier, embedded as `ℕ`;
* prices, percentages and the two risk counters are exact rationals `ℚ`;
  position amounts (share counts) are integers `ℤ`;
* the open-position snapshot `context.portfolio.positions` is an ordered
  association list, matching the iteration order of the Python loop;
* Python's `ZeroDivisionError` (raised by the `price_diff_percent` division
  when `current_price == 0`, with no surrounding `try`) is embedded as an
  `aborted` flag on the loop result: the loop stops at the offending
  position, keeping the counter updates and orders issued before it;
* order submissions (`order_target_percent` / `order_target_value` calls)
  are collected in an output list instead of being sent to the platform.
-/

namespace Ch03

/-- A position held in the portfolio: signed share `amount` and entry
`cost_basis`, as read from `context.portfolio.positions[security]`. -/
structure Position where
  amount : ℤ
  cost_basis : ℚ
deriving DecidableEq

/-- An order request issued to the platform: either
`order_target_percent(security, pct)` or `order_target_value(security, val)`. -/
inductive Order where
  | targetPercent : ℕ → ℚ → Order
  | targetValue : ℕ → ℤ → Order
deriving DecidableEq

/-- The security an order is for. -/
def Order.security : Order → ℕ
  | .targetPercent s _ => s
  | .targetValue s _ => s

/-- Whether an order requests a zero target exposure (a flatten): target
value `0`, or target percent `0` of the portfolio, which is the same zero
currency exposure. -/
def Order.targetsZeroValue : Order → Bool
  | .targetPercent _ p => p = 0
  | .targetValue _ v => v = 0

/-- The strategy state set up by `initialize`: the trading parameters and
the two cumulative counters, all at their start-up values. -/
structure Config where
  NUM_SYMBOLS : ℕ
  TRADE_SIZE : ℤ
  MIN_PROFIT_PERCENT : ℚ
  MAX_LOSS_PERCENT : ℚ
  winners : ℚ
  losers : ℚ
deriving DecidableEq

/-- The start-up assignment in the source's initialization hook: the
concrete values `NUM_SYMBOLS = 10`, `TRADE_SIZE = 100000`, both thresholds
`1`, both counters `0`. -/
def strategyInit : Config :=
  { NUM_SYMBOLS := 10
    TRADE_SIZE := 100000
    MIN_PROFIT_PERCENT := 1
    MAX_LOSS_PERCENT := 1
    winners := 0
    losers := 0 }

/-- `price_diff_percent = ((current_price - position.cost_basis)*100)/current_price`. -/
def price_diff_percent (current_price cost_basis : ℚ) : ℚ :=
  (current_price - cost_basis) * 100 / current_price

/-- The `profit` condition of `check_profit_loss`:
`(amount > 0 and pd > MIN_PROFIT_PERCENT) or (amount < 0 and -pd > MIN_PROFIT_PERCENT)`. -/
def profitB (minProfit : ℚ) (amount : ℤ) (pd : ℚ) : Bool :=
  (decide (amount > 0) && decide (pd > minProfit)) ||
    (decide (amount < 0) && decide (-pd > minProfit))

/-- The `loss` condition of `check_profit_loss`:
`(amount > 0 and -pd > MAX_LOSS_PERCENT) or (amount < 0 and pd > MAX_LOSS_PERCENT)`. -/
def lossB (maxLoss : ℚ) (amount : ℤ) (pd : ℚ) : Bool :=
  (decide (amount > 0) && decide (-pd > maxLoss)) ||
    (decide (amount < 0) && decide (pd > maxLoss))

/-- The guard on line 119 of the source:
`security not in context.buy and security not in context.sell and (profit or loss)`. -/
def shouldFlatten (minProfit maxLoss : ℚ) (buy sell : List ℕ) (sec : ℕ)
    (amount : ℤ) (pd : ℚ) : Bool :=
  !buy.contains sec && !sell.contains sec &&
    (profitB minProfit amount pd || lossB maxLoss amount pd)

/-- Result of one run of the `check_profit_loss` position loop: the updated
counters, the flatten orders issued (in issue order), and whether the loop
was aborted by a `ZeroDivisionError` from a zero current price. -/
structure PLResult where
  winners : ℚ
  losers : ℚ
  orders : List Order
  aborted : Bool
deriving DecidableEq

/-- The position loop of `check_profit_loss(context, data)`.  For each open
position in order: read the current price; divide to get
`price_diff_percent` (a zero price raises `ZeroDivisionError`, which
escapes the loop — embedded as an aborted partial result); compute
`profit` and `loss`; if the security is in neither `context.buy` nor
`context.sell` and `(profit or loss)`, bump the matching counter by
`abs(amount * threshold)` and issue `order_target_percent(security, 0)`. -/
def checkPositions (minProfit maxLoss : ℚ) (buy sell : List ℕ) (price : ℕ → ℚ) :
    List (ℕ × Position) → ℚ → ℚ → PLResult
  | [], w, l => ⟨w, l, [], false⟩
  | (sec, pos) :: rest, w, l =>
    let cp := price sec
    if cp = 0 then ⟨w, l, [], true⟩
    else
      let pd := price_diff_percent cp pos.cost_basis
      if shouldFlatten minProfit maxLoss buy sell sec pos.amount pd then
        let prof := profitB minProfit pos.amount pd
        let w' := if prof then w + |(pos.amount : ℚ) * minProfit| else w
        let l' := if prof then l else l + |(pos.amount : ℚ) * maxLoss|
        let r := checkPositions minProfit maxLoss buy sell price rest w' l'
        ⟨r.winners, r.losers, Order.targetPercent sec 0 :: r.orders, r.aborted⟩
      else
        checkPositions minProfit maxLoss buy sell price rest w l

/-- One entry loop of `generate_entries`: for each security in the signal
list, if it has no existing position, issue
`order_target_value(security, target)`. -/
def entriesLoop (positions : List (ℕ × Position)) (target : ℤ) : List ℕ → List Order
  | [] => []
  | sec :: rest =>
    if positions.any (fun p => p.1 = sec) then entriesLoop positions target rest
    else Order.targetValue sec target :: entriesLoop positions target rest

/-- `generate_entries(context, data)`: the buy loop (target `+TRADE_SIZE`)
runs in full, then the sell loop (target `-TRADE_SIZE`).  The function only
reads `context.portfolio.positions`; it never writes a position. -/
def generate_entries (tradeSize : ℤ) (buy sell : List ℕ)
    (positions : List (ℕ × Position)) : List Order :=
  entriesLoop positions tradeSize buy ++ entriesLoop positions (-tradeSize) sell

/-- One pipeline output row (the columns of `make_pipeline` that the signal
logic reads), computed from the latest close `price` and the Bollinger band
factors: `buy_percent = ((lower_band - price)*100)/price`,
`sell_percent = ((price - upper_band)*100)/price`, `buy = buy_percent > 0`,
`sell = sell_percent > 0`. -/
structure IndicatorRow where
  price : ℚ
  lower_band : ℚ
  upper_band : ℚ
  buy_percent : ℚ
  sell_percent : ℚ
  buy : Bool
  sell : Bool
deriving DecidableEq

/-- Build the `IndicatorRow` for one security from its latest close and its
band values, following lines 66–74 of the source. -/
def makeIndicatorRow (price lower_band upper_band : ℚ) : IndicatorRow :=
  let bp := (lower_band - price) * 100 / price
  let sp := (price - upper_band) * 100 / price
  { price := price
    lower_band := lower_band
    upper_band := upper_band
    buy_percent := bp
    sell_percent := sp
    buy := decide (bp > 0)
    sell := decide (sp > 0) }

/-- An instrument as seen by the universe pipeline: identifier, Morningstar
sector code, and latest market capitalization. -/
structure Instrument where
  sec : ℕ
  sector : ℤ
  market_cap : ℚ
deriving DecidableEq

/-- `tech_universe_filter = base_universe_filter & tech_sector.eq(311)`:
membership in the base universe and sector code 311. -/
def tech_universe_filter (base : Instrument → Bool) (i : Instrument) : Bool :=
  base i && decide (i.sector = 311)

/-- Modelled from the spec: the quantopian pipeline primitive
`Factor.top(k, mask)` used on line 61 is platform code absent from the
repository; per §4.1 it ranks the masked instruments by latest market
capitalization descending and keeps the top `k`, returning all qualifiers
when fewer than `k` pass the mask.  Embedded as a stable descending sort by
`market_cap` followed by `take k`. -/
def topByMarketCap (k : ℕ) (l : List Instrument) : List Instrument :=
  (l.mergeSort (fun a b => decide (b.market_cap ≤ a.market_cap))).take k

/-- The universe selection of `make_pipeline`: apply
`tech_universe_filter`, then take the top `NUM_SYMBOLS` by market cap. -/
def make_universe (k : ℕ) (base : Instrument → Bool) (l : List Instrument) :
    List Instrument :=
  topByMarketCap k (l.filter (tech_universe_filter base))

/-- The instruments the universe selection leaves out of the top-`k` cut
(the rest of the sorted qualifying list). -/
def universe_leftover (k : ℕ) (base : Instrument → Bool) (l : List Instrument) :
    List Instrument :=
  ((l.filter (tech_universe_filter base)).mergeSort
    (fun a b => decide (b.market_cap ≤ a.market_cap))).drop k

/-- Inputs to one `handle_data` tick: the day's frozen signal lists, the
live price source, and the open-position snapshot. -/
structure TickInput where
  buy : List ℕ
  sell : List ℕ
  price : ℕ → ℚ
  positions : List (ℕ × Position)

/-- Run a sequence of `check_profit_loss` ticks, threading the `winners`
and `losers` counters through (each tick keeps whatever partial updates it
made even if it aborted, as the Python `+=` mutations do). -/
def runTicks : List TickInput → ℚ → ℚ → ℚ × ℚ
  | [], w, l => (w, l)
  | t :: ts, w, l =>
    let r := checkPositions 1 1 t.buy t.sell t.price t.positions w l
    runTicks ts r.winners r.losers

/-- The claimed per-position profit formula as the spec writes it, with
`is_long = amount > 0` and the short branch guarded by `not is_long`
(so it covers `amount ≤ 0`).  Stated from the spec's words for comparison
with the source's `profitB`. -/
def profitSpec (minProfit : ℚ) (amount : ℤ) (pd : ℚ) : Bool :=
  (decide (amount > 0) && decide (pd > minProfit)) ||
    (!decide (amount > 0) && decide (-pd > minProfit))

/-- The spec's loss formula with the short branch guarded by `not is_long`,
analogous to `profitSpec`. -/
def lossSpec (maxLoss : ℚ) (amount : ℤ) (pd : ℚ) : Bool :=
  (decide (amount > 0) && decide (-pd > maxLoss)) ||
    (!decide (amount > 0) && decide (pd > maxLoss))

/-! ## Helper lemmas -/

/-- The negated membership tests of line 119, read back as propositions. -/
theorem not_contains_iff (L : List ℕ) (sec : ℕ) : (!L.contains sec) = true ↔ sec ∉ L := by
  simp [List.contains, List.elem_iff]

/-- The line-119 guard, read back as a proposition: the security is in
neither signal list and the `profit` or the `loss` condition holds, the
short branches requiring a strictly negative amount. -/
theorem shouldFlatten_iff (minProfit maxLoss : ℚ) (buy sell : List ℕ) (sec : ℕ)
    (a : ℤ) (pd : ℚ) :
    shouldFlatten minProfit maxLoss buy sell sec a pd = true ↔
      (sec ∉ buy ∧ sec ∉ sell ∧
        (((0 < a ∧ minProfit < pd) ∨ (a < 0 ∧ minProfit < -pd)) ∨
         ((0 < a ∧ maxLoss < -pd) ∨ (a < 0 ∧ maxLoss < pd)))) := by
  simp [shouldFlatten, profitB, lossB, List.contains, List.elem_iff, and_assoc]

/-! ## Claim theorems -/

/-- C6: for every `IndicatorRow` with positive price, `buy_percent` and
`sell_percent` follow the pipeline's formulas, `buy` holds iff
`buy_percent > 0` iff `price < lower_band`, `sell` holds iff
`sell_percent > 0` iff `price > upper_band`, and with non-degenerate bands
(`lower_band < upper_band`) the two flags are never both true. -/
theorem indicator_row_spec (price lower_band upper_band : ℚ) (hp : 0 < price) :
    (makeIndicatorRow price lower_band upper_band).buy_percent
        = (lower_band - price) * 100 / price ∧
    (makeIndicatorRow price lower_band upper_band).sell_percent
        = (price - upper_band) * 100 / price ∧
    ((makeIndicatorRow price lower_band upper_band).buy = true
        ↔ 0 < (makeIndicatorRow price lower_band upper_band).buy_percent) ∧
    ((makeIndicatorRow price lower_band upper_band).buy = true ↔ price < lower_band) ∧
    ((makeIndicatorRow price lower_band upper_band).sell = true
        ↔ 0 < (makeIndicatorRow price lower_band upper_band).sell_percent) ∧
    ((makeIndicatorRow price lower_band upper_band).sell = true ↔ upper_band < price) ∧
    (lower_band < upper_band →
      ¬((makeIndicatorRow price lower_band upper_band).buy = true ∧
        (makeIndicatorRow price lower_band upper_band).sell = true)) := by
  have key : ∀ a : ℚ, 0 < a * 100 / price ↔ 0 < a := by
    intro a
    constructor
    · intro h
      rcases div_pos_iff.mp h with ⟨h1, _⟩ | ⟨_, h2⟩
      · nlinarith
      · nlinarith
    · intro h
      exact div_pos (by nlinarith) hp
  have hbuy : (makeIndicatorRow price lower_band upper_band).buy = true
      ↔ price < lower_band := by
    simp only [makeIndicatorRow, decide_eq_true_iff]
    rw [gt_iff_lt, key (lower_band - price), sub_pos]
  have hsell : (makeIndicatorRow price lower_band upper_band).sell = true
      ↔ upper_band < price := by
    simp only [makeIndicatorRow, decide_eq_true_iff]
    rw [gt_iff_lt, key (price - upper_band), sub_pos]
  refine ⟨rfl, rfl, ?_, hbuy, ?_, hsell, ?_⟩
  · simp only [makeIndicatorRow, decide_eq_true_iff, gt_iff_lt]
  · simp only [makeIndicatorRow, decide_eq_true_iff, gt_iff_lt]
  · intro hband ⟨hb, hs⟩
    have h1 := hbuy.mp hb
    have h2 := hsell.mp hs
    linarith

/-- C6 witness: at `price = 95`, `lower_band = 100`, `upper_band = 110`
the buy flag fires and the sell flag does not. -/
theorem indicator_row_spec_witness :
    (0:ℚ) < 95 ∧ ((makeIndicatorRow 95 100 110).buy = true ↔ (95:ℚ) < 100) :=
  ⟨by norm_num, (indicator_row_spec 95 100 110 (by norm_num)).2.2.2.1⟩

/-- C9: a position with amount exactly zero satisfies neither the `profit`
nor the `loss` condition, so the risk check issues no order for it and
leaves both counters unchanged, whatever the price difference. -/
theorem zero_amount_position_untouched (minProfit maxLoss : ℚ) (buy sell : List ℕ)
    (price : ℕ → ℚ) (sec : ℕ) (cb w l : ℚ) :
    profitB minProfit 0 (price_diff_percent (price sec) cb) = false ∧
    lossB maxLoss 0 (price_diff_percent (price sec) cb) = false ∧
    (checkPositions minProfit maxLoss buy sell price [(sec, ⟨0, cb⟩)] w l).orders = [] ∧
    (checkPositions minProfit maxLoss buy sell price [(sec, ⟨0, cb⟩)] w l).winners = w ∧
    (checkPositions minProfit maxLoss buy sell price [(sec, ⟨0, cb⟩)] w l).losers = l := by
  refine ⟨by simp [profitB], by simp [lossB], ?_⟩
  by_cases h : price sec = 0 <;>
    simp [checkPositions, h, shouldFlatten, profitB, lossB]

/-- C1 counterexample: at `amount = 0`, `cost_basis = 102`,
`current_price = 100`, `MIN_PROFIT_PERCENT = 1`, the spec's formula (whose
short branch is guarded by `not is_long`, hence covers `amount ≤ 0`)
reports a profit exit, yet the code's `profit` condition is false and the
loop flattens nothing. -/
theorem profit_formula_zero_amount_cex :
    profitSpec 1 0 (price_diff_percent 100 102) = true ∧
    lossSpec 1 0 (price_diff_percent 100 102) = false ∧
    profitB 1 0 (price_diff_percent 100 102) = false ∧
    (checkPositions 1 1 [] [] (fun _ => 100) [(7, ⟨0, 102⟩)] 0 0).orders = [] := by
  norm_num [profitSpec, lossSpec, profitB, lossB, checkPositions, shouldFlatten,
    price_diff_percent]

/-- C1 (amended): `price_diff_percent` follows the spec's formula, and a
single open position is flattened iff it is in neither signal list and the
`profit` or `loss` formula holds — with the short branch of each guarded by
`amount < 0` (not `not is_long`): a position with `amount = 0` satisfies
neither branch. -/
theorem check_profit_loss_flatten_formula (minProfit maxLoss : ℚ) (buy sell : List ℕ)
    (price : ℕ → ℚ) (sec : ℕ) (a : ℤ) (cb w l : ℚ) (hcp : price sec ≠ 0) :
    price_diff_percent (price sec) cb = (price sec - cb) * 100 / price sec ∧
    ((checkPositions minProfit maxLoss buy sell price [(sec, ⟨a, cb⟩)] w l).orders
        = [Order.targetPercent sec 0] ↔
      (sec ∉ buy ∧ sec ∉ sell ∧
        (((0 < a ∧ minProfit < price_diff_percent (price sec) cb) ∨
          (a < 0 ∧ minProfit < -price_diff_percent (price sec) cb)) ∨
         ((0 < a ∧ maxLoss < -price_diff_percent (price sec) cb) ∨
          (a < 0 ∧ maxLoss < price_diff_percent (price sec) cb))))) := by
  refine ⟨rfl, ?_⟩
  rw [← shouldFlatten_iff minProfit maxLoss buy sell sec a
    (price_diff_percent (price sec) cb)]
  by_cases hf : shouldFlatten minProfit maxLoss buy sell sec a
      (price_diff_percent (price sec) cb) = true
  · simp [checkPositions, hcp, hf]
  · simp [checkPositions, hcp, hf]

/-- C1 witness: a long position (`amount = 50`) bought at `100` with the
price now `102` and empty signal lists is flattened. -/
theorem check_profit_loss_flatten_formula_witness :
    (checkPositions 1 1 [] [] (fun _ => 102) [(7, ⟨50, 100⟩)] 0 0).orders
      = [Order.targetPercent 7 0] := by
  apply (check_profit_loss_flatten_formula 1 1 [] [] (fun _ => 102) 7 50 100 0 0
    (by norm_num)).2.mpr
  norm_num [price_diff_percent]

/-- C2 counterexample: with security `1` (price `0`) processed before
security `2` (a profitable long at price `102`), the loop aborts on the
division by zero — no decision is made for security `2`, although the same
loop run on security `2` alone flattens it.  The zero-price failure is not
isolated to its own security. -/
theorem zero_price_not_isolated_cex :
    (checkPositions 1 1 [] [] (fun s => if s = 1 then 0 else 102)
        [(1, ⟨10, 100⟩), (2, ⟨50, 100⟩)] 0 0).aborted = true ∧
    (checkPositions 1 1 [] [] (fun s => if s = 1 then 0 else 102)
        [(1, ⟨10, 100⟩), (2, ⟨50, 100⟩)] 0 0).orders = [] ∧
    (checkPositions 1 1 [] [] (fun s => if s = 1 then 0 else 102)
        [(2, ⟨50, 100⟩)] 0 0).orders = [Order.targetPercent 2 0] := by
  norm_num [checkPositions, shouldFlatten, profitB, lossB, price_diff_percent]

/-- C2 (amended): a zero current price makes the `price_diff_percent`
division raise an error that escapes the per-position loop: the loop stops
at the offending position with no further decisions, keeping only the
counter values accumulated before it. -/
theorem zero_price_aborts_position_loop (minProfit maxLoss : ℚ) (buy sell : List ℕ)
    (price : ℕ → ℚ) (sec : ℕ) (pos : Position) (rest : List (ℕ × Position)) (w l : ℚ)
    (h : price sec = 0) :
    checkPositions minProfit maxLoss buy sell price ((sec, pos) :: rest) w l
      = ⟨w, l, [], true⟩ := by
  simp [checkPositions, h]

/-- C2 witness: a concrete aborted run. -/
theorem zero_price_aborts_position_loop_witness :
    checkPositions 1 1 [] [] (fun _ => 0) [(1, ⟨10, 100⟩), (2, ⟨50, 100⟩)] 5 7
      = ⟨5, 7, [], true⟩ :=
  zero_price_aborts_position_loop 1 1 [] [] (fun _ => 0) 1 ⟨10, 100⟩
    [(2, ⟨50, 100⟩)] 5 7 rfl

/-- Every order the position loop issues is a `order_target_percent(sec, 0)`
for a position of the list whose line-119 guard was true. -/
theorem checkPositions_orders_characterization (minProfit maxLoss : ℚ)
    (buy sell : List ℕ) (price : ℕ → ℚ) :
    ∀ (ps : List (ℕ × Position)) (w l : ℚ),
      ∀ o ∈ (checkPositions minProfit maxLoss buy sell price ps w l).orders,
        ∃ p ∈ ps, o = Order.targetPercent p.1 0 ∧
          shouldFlatten minProfit maxLoss buy sell p.1 p.2.amount
            (price_diff_percent (price p.1) p.2.cost_basis) = true := by
  intro ps
  induction ps with
  | nil => intro w l o ho; simp [checkPositions] at ho
  | cons hd tl ih =>
    obtain ⟨s, pos⟩ := hd
    intro w l o ho
    by_cases hcp : price s = 0
    · simp [checkPositions, hcp] at ho
    · by_cases hf : shouldFlatten minProfit maxLoss buy sell s pos.amount
          (price_diff_percent (price s) pos.cost_basis) = true
      · simp only [checkPositions, hcp, if_false, hf, if_true, List.mem_cons] at ho
        rcases ho with rfl | ho
        · exact ⟨(s, pos), List.mem_cons_self _ _, rfl, hf⟩
        · obtain ⟨p, hp, he⟩ := ih _ _ o ho
          exact ⟨p, List.mem_cons_of_mem _ hp, he⟩
      · simp only [checkPositions, hcp, if_false, hf] at ho
        obtain ⟨p, hp, he⟩ := ih _ _ o ho
        exact ⟨p, List.mem_cons_of_mem _ hp, he⟩

/-- C3: when the line-119 guard fires for a single open position, the loop
issues exactly one zero-target order for the security and bumps `winners`
by `|amount| * MIN_PROFIT_PERCENT` on a profit exit or `losers` by
`|amount| * MAX_LOSS_PERCENT` on a loss exit, using the threshold percent
rather than the realized percent. -/
theorem flatten_effect_orders_and_counters (minProfit maxLoss : ℚ)
    (hm : 0 ≤ minProfit) (hx : 0 ≤ maxLoss) (buy sell : List ℕ)
    (price : ℕ → ℚ) (sec : ℕ) (a : ℤ) (cb w l : ℚ) (hcp : price sec ≠ 0)
    (hf : shouldFlatten minProfit maxLoss buy sell sec a
      (price_diff_percent (price sec) cb) = true) :
    (checkPositions minProfit maxLoss buy sell price [(sec, ⟨a, cb⟩)] w l).orders
        = [Order.targetPercent sec 0] ∧
    (Order.targetPercent sec 0).targetsZeroValue = true ∧
    (profitB minProfit a (price_diff_percent (price sec) cb) = true →
      (checkPositions minProfit maxLoss buy sell price [(sec, ⟨a, cb⟩)] w l).winners
          = w + |(a : ℚ)| * minProfit ∧
      (checkPositions minProfit maxLoss buy sell price [(sec, ⟨a, cb⟩)] w l).losers = l) ∧
    (profitB minProfit a (price_diff_percent (price sec) cb) = false →
      (checkPositions minProfit maxLoss buy sell price [(sec, ⟨a, cb⟩)] w l).losers
          = l + |(a : ℚ)| * maxLoss ∧
      (checkPositions minProfit maxLoss buy sell price [(sec, ⟨a, cb⟩)] w l).winners = w) := by
  by_cases hp : profitB minProfit a (price_diff_percent (price sec) cb) = true
  · simp [checkPositions, hcp, hf, hp, Order.targetsZeroValue, abs_mul,
      abs_of_nonneg hm]
  · simp [checkPositions, hcp, hf, hp, Order.targetsZeroValue, abs_mul,
      abs_of_nonneg hx]

/-- C3 witness: the spec's scenario `cost_basis = 100`,
`current_price = 102`, `amount = +50`, `MIN_PROFIT_PERCENT = 1`, empty
signal lists: the position is flattened and `winners` rises by `50`. -/
theorem flatten_effect_scenario_witness :
    (checkPositions 1 1 [] [] (fun _ => 102) [(9, ⟨50, 100⟩)] 0 0).orders
        = [Order.targetPercent 9 0] ∧
    (checkPositions 1 1 [] [] (fun _ => 102) [(9, ⟨50, 100⟩)] 0 0).winners = 50 := by
  have h := flatten_effect_orders_and_counters 1 1 (by norm_num) (by norm_num)
    [] [] (fun _ => 102) 9 50 100 0 0 (by norm_num)
    (by norm_num [shouldFlatten, profitB, lossB, price_diff_percent])
  have hp : profitB 1 50 (price_diff_percent ((fun _ => (102:ℚ)) 9) 100) = true := by
    norm_num [profitB, price_diff_percent]
  refine ⟨h.1, ?_⟩
  rw [(h.2.2.1 hp).1]
  norm_num

/-- C4: a security present in today's `buy` or `sell` list is never
flattened by the risk check: no order of any loop run is for it, and a run
over just its position leaves both counters unchanged. -/
theorem signal_list_never_flattened (minProfit maxLoss : ℚ) (buy sell : List ℕ)
    (price : ℕ → ℚ) (sec : ℕ) (h : sec ∈ buy ∨ sec ∈ sell) :
    (∀ (ps : List (ℕ × Position)) (w l : ℚ),
      ∀ o ∈ (checkPositions minProfit maxLoss buy sell price ps w l).orders,
        o.security ≠ sec) ∧
    (∀ (pos : Position) (w l : ℚ),
      (checkPositions minProfit maxLoss buy sell price [(sec, pos)] w l).winners = w ∧
      (checkPositions minProfit maxLoss buy sell price [(sec, pos)] w l).losers = l) := by
  have hsf : ∀ (a : ℤ) (pd : ℚ),
      shouldFlatten minProfit maxLoss buy sell sec a pd = false := by
    intro a pd
    rcases Bool.eq_false_or_eq_true
        (shouldFlatten minProfit maxLoss buy sell sec a pd) with hb | hb
    · obtain ⟨h1, h2, _⟩ := (shouldFlatten_iff minProfit maxLoss buy sell sec a pd).mp hb
      rcases h with hmem | hmem
      · exact absurd hmem h1
      · exact absurd hmem h2
    · exact hb
  constructor
  · intro ps w l o ho heq
    obtain ⟨p, _, rfl, hpf⟩ :=
      checkPositions_orders_characterization minProfit maxLoss buy sell price ps w l o ho
    rw [show p.1 = sec from heq] at hpf
    rw [hsf] at hpf
    exact Bool.false_ne_true hpf
  · intro pos w l
    by_cases hcp : price sec = 0 <;> simp [checkPositions, hcp, hsf]

/-- C4 witness: security `2` is in the buy list; its profitable position is
not flattened and the counters stay put. -/
theorem signal_list_never_flattened_witness :
    ((2 ∈ ([2] : List ℕ) ∨ 2 ∈ ([] : List ℕ)) ∧
      (checkPositions 1 1 [2] [] (fun _ => 102) [(2, ⟨50, 100⟩)] 0 0).winners = 0) := by
  refine ⟨Or.inl (by simp), ?_⟩
  exact ((signal_list_never_flattened 1 1 [2] [] (fun _ => 102) 2
    (Or.inl (by simp))).2 ⟨50, 100⟩ 0 0).1

/-- Every order an entry loop issues is for a security of the signal list
that holds no position. -/
theorem entriesLoop_orders_characterization (positions : List (ℕ × Position)) (t : ℤ) :
    ∀ (bl : List ℕ), ∀ o ∈ entriesLoop positions t bl,
      o.security ∈ bl ∧ positions.any (fun p => p.1 = o.security) = false := by
  intro bl
  induction bl with
  | nil => intro o ho; simp [entriesLoop] at ho
  | cons s rest ih =>
    intro o ho
    simp only [entriesLoop] at ho
    by_cases hmem : positions.any (fun p => p.1 = s) = true
    · rw [if_pos hmem] at ho
      obtain ⟨h1, h2⟩ := ih o ho
      exact ⟨List.mem_cons_of_mem _ h1, h2⟩
    · rw [if_neg hmem] at ho
      rcases List.mem_cons.mp ho with rfl | ho
      · refine ⟨List.mem_cons_self _ _, ?_⟩
        simp only [Order.security]
        exact Bool.eq_false_iff.mpr hmem
      · obtain ⟨h1, h2⟩ := ih o ho
        exact ⟨List.mem_cons_of_mem _ h1, h2⟩

/-- C5: re-running entry generation issues no order for a security that
already holds a position: `generate_entries` requests nothing for it (and
the function only reads the position book, so the position itself is left
untouched by entry logic). -/
theorem entry_generation_idempotent (tradeSize : ℤ) (buy sell : List ℕ)
    (positions : List (ℕ × Position)) (sec : ℕ)
    (h : sec ∈ positions.map Prod.fst) :
    ∀ o ∈ generate_entries tradeSize buy sell positions, o.security ≠ sec := by
  intro o ho heq
  have hany : positions.any (fun p => p.1 = sec) = true := by
    obtain ⟨p, hp, hfst⟩ := List.mem_map.mp h
    exact List.any_eq_true.mpr ⟨p, hp, by simp [hfst]⟩
  rcases List.mem_append.mp ho with hbuy | hsell
  · have := (entriesLoop_orders_characterization positions tradeSize buy o hbuy).2
    rw [heq, hany] at this
    exact Bool.noConfusion this
  · have := (entriesLoop_orders_characterization positions (-tradeSize) sell o hsell).2
    rw [heq, hany] at this
    exact Bool.noConfusion this

/-- C5 witness: security `3` holds a position, is in the buy list, and gets
no entry order. -/
theorem entry_generation_idempotent_witness :
    (3 ∈ ([(3, (⟨50, 100⟩ : Position))] : List (ℕ × Position)).map Prod.fst) ∧
    ∀ o ∈ generate_entries 100000 [3] [] [(3, ⟨50, 100⟩)], o.security ≠ 3 :=
  ⟨by simp, entry_generation_idempotent 100000 [3] [] [(3, ⟨50, 100⟩)] 3 (by simp)⟩

/-- One position-loop run never decreases either counter: each update adds
an absolute value. -/
theorem checkPositions_counters_mono (minProfit maxLoss : ℚ) (buy sell : List ℕ)
    (price : ℕ → ℚ) :
    ∀ (ps : List (ℕ × Position)) (w l : ℚ),
      w ≤ (checkPositions minProfit maxLoss buy sell price ps w l).winners ∧
      l ≤ (checkPositions minProfit maxLoss buy sell price ps w l).losers := by
  intro ps
  induction ps with
  | nil => intro w l; simp [checkPositions]
  | cons hd tl ih =>
    intro w l
    obtain ⟨s, pos⟩ := hd
    by_cases hcp : price s = 0
    · simp [checkPositions, hcp]
    · by_cases hf : shouldFlatten minProfit maxLoss buy sell s pos.amount
          (price_diff_percent (price s) pos.cost_basis) = true
      · by_cases hp : profitB minProfit pos.amount
            (price_diff_percent (price s) pos.cost_basis) = true
        · rcases ih (w + |(pos.amount : ℚ) * minProfit|) l with ⟨ih1, ih2⟩
          constructor
          · simp only [checkPositions, if_neg hcp, if_pos hf, if_pos hp]
            exact le_trans (le_add_of_nonneg_right (abs_nonneg _)) ih1
          · simp only [checkPositions, if_neg hcp, if_pos hf, if_pos hp]
            exact ih2
        · rcases ih w (l + |(pos.amount : ℚ) * maxLoss|) with ⟨ih1, ih2⟩
          constructor
          · simp only [checkPositions, if_neg hcp, if_pos hf, if_neg hp]
            exact ih1
          · simp only [checkPositions, if_neg hcp, if_pos hf, if_neg hp]
            exact le_trans (le_add_of_nonneg_right (abs_nonneg _)) ih2
      · rcases ih w l with ⟨ih1, ih2⟩
        constructor
        · simp only [checkPositions, if_neg hcp, if_neg hf]
          exact ih1
        · simp only [checkPositions, if_neg hcp, if_neg hf]
          exact ih2

/-- C7: both counters start at zero in the initial configuration and are
non-decreasing across every sequence of risk-check ticks. -/
theorem risk_counters_monotone :
    strategyInit.winners = 0 ∧ strategyInit.losers = 0 ∧
    ∀ (ticks : List TickInput) (w l : ℚ),
      w ≤ (runTicks ticks w l).1 ∧ l ≤ (runTicks ticks w l).2 := by
  refine ⟨rfl, rfl, ?_⟩
  intro ticks
  induction ticks with
  | nil => intro w l; simp [runTicks]
  | cons t ts ih =>
    intro w l
    rcases checkPositions_counters_mono 1 1 t.buy t.sell t.price t.positions w l
      with ⟨h1, h2⟩
    rcases ih (checkPositions 1 1 t.buy t.sell t.price t.positions w l).winners
      (checkPositions 1 1 t.buy t.sell t.price t.positions w l).losers with ⟨h3, h4⟩
    exact ⟨le_trans h1 h3, le_trans h2 h4⟩

/-- For a security holding no position, an entry loop emits one
`order_target_value(security, target)` per occurrence of the security in
the signal list. -/
theorem entriesLoop_filter_eq (positions : List (ℕ × Position)) (t : ℤ) (sec : ℕ)
    (hpos : sec ∉ positions.map Prod.fst) :
    ∀ bl : List ℕ,
      (entriesLoop positions t bl).filter (fun o => o.security = sec)
        = List.replicate (bl.count sec) (Order.targetValue sec t) := by
  have hany : positions.any (fun p => p.1 = sec) = false := by
    rcases Bool.eq_false_or_eq_true (positions.any fun p => p.1 = sec) with hb | hb
    · obtain ⟨p, hp, hps⟩ := List.any_eq_true.mp hb
      exact absurd (List.mem_map.mpr ⟨p, hp, of_decide_eq_true hps⟩) hpos
    · exact hb
  intro bl
  induction bl with
  | nil => simp [entriesLoop]
  | cons s rest ih =>
    simp only [entriesLoop]
    by_cases hmem : positions.any (fun p => p.1 = s) = true
    · have hne : s ≠ sec := by
        intro h
        rw [h, hany] at hmem
        exact Bool.noConfusion hmem
      rw [if_pos hmem, ih, List.count_cons]
      simp [hne]
    · rw [if_neg hmem]
      simp only [List.filter_cons]
      by_cases hs : s = sec
      · subst hs
        rw [if_pos (show decide ((Order.targetValue s t).security = s) = true from
          by simp [Order.security]), ih, List.count_cons]
        simp [List.replicate_succ]
      · rw [if_neg (show ¬decide ((Order.targetValue s t).security = sec) = true from
          by simp [Order.security, hs]), ih, List.count_cons]
        simp [hs]

/-- C10: a security appearing (once) in both lists with no position gets
exactly two orders, `+TRADE_SIZE` from the buy loop then `-TRADE_SIZE` from
the sell loop, so its last requested target value is `-TRADE_SIZE`. -/
theorem dual_signal_order_sequence (tradeSize : ℤ) (buy sell : List ℕ)
    (positions : List (ℕ × Position)) (sec : ℕ)
    (hb : buy.count sec = 1) (hs : sell.count sec = 1)
    (hpos : sec ∉ positions.map Prod.fst) :
    (generate_entries tradeSize buy sell positions).filter
        (fun o => o.security = sec)
      = [Order.targetValue sec tradeSize, Order.targetValue sec (-tradeSize)] ∧
    ((generate_entries tradeSize buy sell positions).filter
        (fun o => o.security = sec)).getLast?
      = some (Order.targetValue sec (-tradeSize)) := by
  have key : (generate_entries tradeSize buy sell positions).filter
      (fun o => o.security = sec)
      = [Order.targetValue sec tradeSize, Order.targetValue sec (-tradeSize)] := by
    unfold generate_entries
    rw [List.filter_append, entriesLoop_filter_eq positions tradeSize sec hpos buy,
      entriesLoop_filter_eq positions (-tradeSize) sec hpos sell, hb, hs]
    rfl
  exact ⟨key, by rw [key]; rfl⟩

/-- C10 witness: security `5` in both lists, flat book, `TRADE_SIZE`
`100000`. -/
theorem dual_signal_order_sequence_witness :
    ([5] : List ℕ).count 5 = 1 ∧
    (generate_entries 100000 [5] [5] []).filter (fun o => o.security = 5)
      = [Order.targetValue 5 100000, Order.targetValue 5 (-100000)] :=
  ⟨by simp,
    (dual_signal_order_sequence 100000 [5] [5] [] 5 (by simp) (by simp) (by simp)).1⟩

/-- C8: every universe snapshot has at most `k` members; every member is in
the base universe with sector code `311`; every member's market cap is at
least that of every qualifying instrument left out of the cut; and when at
most `k` instruments qualify, the snapshot is exactly the qualifying set
(as a permutation), with no error. -/
theorem universe_snapshot_spec (k : ℕ) (base : Instrument → Bool) (l : List Instrument) :
    (make_universe k base l).length ≤ k ∧
    (∀ i ∈ make_universe k base l, base i = true ∧ i.sector = 311) ∧
    (∀ i ∈ make_universe k base l, ∀ j ∈ universe_leftover k base l,
      j.market_cap ≤ i.market_cap) ∧
    ((l.filter (tech_universe_filter base)).length ≤ k →
      (make_universe k base l).Perm (l.filter (tech_universe_filter base))) := by
  have hperm : ((l.filter (tech_universe_filter base)).mergeSort
      (fun a b => decide (b.market_cap ≤ a.market_cap))).Perm
      (l.filter (tech_universe_filter base)) :=
    List.mergeSort_perm _ _
  have hsorted : List.Pairwise
      (fun a b => (decide (b.market_cap ≤ a.market_cap)) = true)
      ((l.filter (tech_universe_filter base)).mergeSort
        (fun a b => decide (b.market_cap ≤ a.market_cap))) := by
    apply List.sorted_mergeSort
    · intro a b c hab hbc
      rw [decide_eq_true_iff] at *
      exact le_trans hbc hab
    · intro a b
      rcases le_total b.market_cap a.market_cap with h | h <;> simp [h]
  refine ⟨?_, ?_, ?_, ?_⟩
  · rw [make_universe, topByMarketCap, List.length_take]
    exact inf_le_left
  · intro i hi
    have hmem : i ∈ l.filter (tech_universe_filter base) :=
      hperm.mem_iff.mp (List.mem_of_mem_take hi)
    have hfil := (List.mem_filter.mp hmem).2
    rw [tech_universe_filter, Bool.and_eq_true, decide_eq_true_iff] at hfil
    exact hfil
  · intro i hi j hj
    rw [← List.take_append_drop k ((l.filter (tech_universe_filter base)).mergeSort
      (fun a b => decide (b.market_cap ≤ a.market_cap)))] at hsorted
    have hrel := (List.pairwise_append.mp hsorted).2.2 i hi j hj
    exact decide_eq_true_iff.mp hrel
  · intro hlen
    rw [make_universe, topByMarketCap, List.take_of_length_le (by rw [hperm.length_eq]; exact hlen)]
    exact hperm

/-- C8 witness: three instruments, two in sector `311`, cut size `2`: both
qualifiers make the snapshot. -/
theorem universe_snapshot_spec_witness :
    (([⟨1, 311, 5⟩, ⟨2, 205, 9⟩, ⟨3, 311, 7⟩] : List Instrument).filter
        (tech_universe_filter (fun _ => true))).length ≤ 2 ∧
    (make_universe 2 (fun _ => true)
        [⟨1, 311, 5⟩, ⟨2, 205, 9⟩, ⟨3, 311, 7⟩]).Perm
      (([⟨1, 311, 5⟩, ⟨2, 205, 9⟩, ⟨3, 311, 7⟩] : List Instrument).filter
        (tech_universe_filter (fun _ => true))) := by
  have h : (([⟨1, 311, 5⟩, ⟨2, 205, 9⟩, ⟨3, 311, 7⟩] : List Instrument).filter
      (tech_universe_filter (fun _ => true))).length ≤ 2 := by
    simp [tech_universe_filter, List.filter]
  exact ⟨h, (universe_snapshot_spec 2 (fun _ => true)
    [⟨1, 311, 5⟩, ⟨2, 205, 9⟩, ⟨3, 311, 7⟩]).2.2.2 h⟩

end Ch03
